import Mathlib

/-!
Verification of the `endpoint` library (src/src/lib.rs): a typed representation
of network/file endpoints with a parser (`Endpoint::from_str`), a formatter
(`impl fmt::Display for Endpoint`) and a resolver (`Endpoint::to_socket_addrs`).

The Rust code is embedded shallowly.  Code of the repository itself (the
`HostAddr`/`Endpoint`/`ParseEndpointError` data types, `from_str`, `Display`,
`to_socket_addrs`) is translated line by line.  The library leans on external
code that is not part of the repository: the `url` crate (`Url::parse`,
`host_str`, `port`, `scheme`), `std`'s `IpAddr` parsing and `Display`,
`PathBuf`, and the blocking DNS resolution of `ToSocketAddrs`.  Those externals
are modelled as follows:

* `urlParse` — Modelled from the spec: the spec's input grammar
  `scheme "://" host [":" port]` (section 6) with an arbitrary alphabetic
  scheme kept verbatim, a non-empty host containing neither `:` nor `/`, and
  an optional explicit decimal port bounded by 65535.
* `ipAddrParse` / `IpAddr` — Modelled from the spec: `IpAddr::from_str` on the
  dotted-quad IPv4 textual form (strict octets, no leading zeros).  The `V6`
  alternative of the data type is kept, but in this code path IPv6 hosts reach
  `from_str` bracketed from the URL layer and never parse as an `IpAddr`.
* Paths — `PathBuf::from` / `Path::display` are the identity on (UTF-8)
  strings, so paths are plain `String`s.
* DNS — the resolver is parameterised by an abstract lookup function `dns`;
  all resolver theorems hold for every such function.
-/

/-- Decimal digit accumulator: the value of a digit list read left to right,
as done by a decimal string parser (`'0'` has code point 48). -/
def digitsVal (l : List Char) : Nat :=
  l.foldl (fun a c => a * 10 + (c.toNat - 48)) 0

/-- Fuel-driven digit expansion in base `b`, most significant digit first.
This is the standard structural rendering of `Nat.repr`. -/
def toDigitsAux (b : Nat) : Nat → Nat → List Char
  | 0, _ => []
  | fuel + 1, n =>
    if n < b then [Nat.digitChar n]
    else toDigitsAux b fuel (n / b) ++ [Nat.digitChar (n % b)]

/-- The decimal digit characters of `n`, e.g. `natChars 90 = ['9','0']`. -/
def natChars (n : Nat) : List Char := toDigitsAux 10 (n + 1) n

/-- Decimal rendering of a natural number; models `u16`'s `Display`. -/
def natToString (n : Nat) : String := ⟨natChars n⟩

/-- Lower-case hexadecimal digit characters of `n` (used only by the modelled
`IPv6` display, which is unreachable from parser-produced values). -/
def hexChars (n : Nat) : List Char := toDigitsAux 16 (n + 1) n

/-- List-level model of Rust's `str::strip_prefix`: `dropLead p s` is `some r`
iff `s = p ++ r`. -/
def dropLead : List Char → List Char → Option (List Char)
  | [], s => some s
  | _ :: _, [] => none
  | p :: ps, c :: cs => if p = c then dropLead ps cs else none

/-- String-level model of Rust's `str::strip_prefix`. -/
def stripLead (p s : String) : Option String :=
  (dropLead p.data s.data).map String.mk

/-- Split a character list at every `'.'` (used by the IPv4 literal parser);
`fields ['1','2','.','3'] = [['1','2'],['3']]`. -/
def fields : List Char → List (List Char)
  | [] => [[]]
  | c :: rest =>
    if c = '.' then [] :: fields rest
    else
      match fields rest with
      | [] => [[c]]
      | f :: fs => (c :: f) :: fs

/-- One octet of a dotted-quad IPv4 literal: non-empty, all decimal digits,
no leading zero, value at most 255 (Rust's strict `Ipv4Addr` octet rules). -/
def octetOf (g : List Char) : Option Nat :=
  if g = [] then none
  else if g.all Char.isDigit then
    if g.length = 1 ∨ g.head? ≠ some '0' then
      if digitsVal g ≤ 255 then some (digitsVal g) else none
    else none
  else none

/-- An IP address value, as in `std::net::IpAddr` (`V4` or `V6`). -/
inductive IpAddr where
  | V4 (a b c d : Nat)
  | V6 (s0 s1 s2 s3 s4 s5 s6 s7 : Nat)
  deriving DecidableEq

/-- Dotted-quad IPv4 parsing on character lists. -/
def ipv4Parse (cs : List Char) : Option IpAddr :=
  match fields cs with
  | [g1, g2, g3, g4] =>
    match octetOf g1, octetOf g2, octetOf g3, octetOf g4 with
    | some a, some b, some c, some d => some (IpAddr.V4 a b c d)
    | _, _, _, _ => none
  | _ => none

/-- Modelled from the spec: `IpAddr::from_str` (Rust `std`, external code).
Only the IPv4 dotted-quad textual form is parsed; in this code path IPv6 host
strings arrive bracketed from the URL layer and therefore never parse as an
`IpAddr` (see section 4.1 of the spec: host classification falls back to
`Domain` verbatim). -/
def ipAddrParse (s : String) : Option IpAddr :=
  ipv4Parse s.data

/-- `HostAddr`: a host, either an IP address or a domain name (src/src/lib.rs,
lines 9-13). -/
inductive HostAddr where
  | Ip (ip : IpAddr)
  | Domain (d : String)
  deriving DecidableEq

/-- `Endpoint`: network or file endpoints (src/src/lib.rs, lines 16-33).
Paths are `String`s (UTF-8 `PathBuf` contents). -/
inductive Endpoint where
  | Http (host : HostAddr) (port : Nat)
  | Https (host : HostAddr) (port : Nat)
  | Tcp (host : HostAddr) (port : Nat)
  | Udp (host : HostAddr) (port : Nat)
  | Mqtt (host : HostAddr) (port : Nat)
  | Mqtts (host : HostAddr) (port : Nat)
  | Ws (host : HostAddr) (port : Nat)
  | Wss (host : HostAddr) (port : Nat)
  | Coap (host : HostAddr) (port : Nat)
  | Coaps (host : HostAddr) (port : Nat)
  | Redis (host : HostAddr) (port : Nat)
  | Amqp (host : HostAddr) (port : Nat)
  | Ftp (host : HostAddr) (port : Nat)
  | Unix (path : String)
  | File (path : String)
  deriving DecidableEq

/-- `ParseEndpointError` (src/src/lib.rs, lines 36-42). -/
inductive ParseEndpointError where
  | InvalidScheme
  | InvalidAddress (detail : String)
  deriving DecidableEq

/-- Decidable equality for `Except`, needed to evaluate parser results on
concrete inputs. -/
def exceptDecEq {ε α : Type} [DecidableEq ε] [DecidableEq α] :
    DecidableEq (Except ε α) := fun x y =>
  match x, y with
  | .ok a, .ok b =>
    if h : a = b then isTrue (by rw [h]) else isFalse (by intro he; cases he; exact h rfl)
  | .ok _, .error _ => isFalse (by intro h; cases h)
  | .error _, .ok _ => isFalse (by intro h; cases h)
  | .error a, .error b =>
    if h : a = b then isTrue (by rw [h]) else isFalse (by intro he; cases he; exact h rfl)

instance {ε α : Type} [DecidableEq ε] [DecidableEq α] : DecidableEq (Except ε α) :=
  exceptDecEq

/-- A socket address: an IP address paired with a port
(`std::net::SocketAddr::new`). -/
structure SocketAddr where
  ip : IpAddr
  port : Nat
  deriving DecidableEq

/-- The slice of the `url` crate's `Url` value observed by `from_str`:
`scheme()`, `host_str()` and `port()`. -/
structure Url where
  scheme : String
  host_str : Option String
  port : Option Nat
  deriving DecidableEq

/-- Characters allowed in the modelled host component: everything except the
port separator `:` and the path separator `/`. -/
def hostChar (c : Char) : Bool :=
  !(c == ':') && !(c == '/')

/-- Modelled from the spec: `Url::parse` (the `url` crate, external code),
restricted to the spec's input grammar `scheme "://" host [":" port]`
(section 6): an alphabetic scheme kept verbatim, a non-empty host containing
neither `:` nor `/`, and an optional non-empty decimal port of value at most
65535.  Inputs outside this grammar do not parse. -/
def urlParseList (cs : List Char) : Option Url :=
  if cs.takeWhile Char.isAlpha = [] then none
  else
    match cs.drop (cs.takeWhile Char.isAlpha).length with
    | ':' :: '/' :: '/' :: rest2 =>
      if rest2.takeWhile hostChar = [] then none
      else
        match rest2.drop (rest2.takeWhile hostChar).length with
        | [] => some ⟨⟨cs.takeWhile Char.isAlpha⟩, some ⟨rest2.takeWhile hostChar⟩, none⟩
        | ':' :: pcs =>
          if pcs = [] then none
          else if pcs.all Char.isDigit then
            if digitsVal pcs ≤ 65535 then
              some ⟨⟨cs.takeWhile Char.isAlpha⟩, some ⟨rest2.takeWhile hostChar⟩,
                some (digitsVal pcs)⟩
            else none
          else none
        | _ => none
    | _ => none

/-- Modelled from the spec: `Url::parse` on strings; see `urlParseList`. -/
def urlParse (s : String) : Option Url :=
  urlParseList s.data

/-- The per-scheme default-port table of `from_str` (src/src/lib.rs,
lines 73-77): the inner `match url.scheme()` arm of the port resolution. -/
def defaultPort (sch : String) : Option Nat :=
  match sch with
  | "http" | "ws" | "mqtt" | "coap" | "redis" | "amqp" | "ftp" => some 80
  | "https" | "wss" | "mqtts" | "coaps" => some 443
  | _ => none

/-- Port resolution of `from_str` (src/src/lib.rs, lines 71-78): an explicit
port is used as given, otherwise the default-port table is consulted. -/
def resolvedPort (url : Url) : Option Nat :=
  match url.port with
  | some p => some p
  | none => defaultPort url.scheme

/-- Host classification of `from_str` (src/src/lib.rs, lines 65-69): a host
string that parses as an IP literal becomes `Ip`, otherwise `Domain` verbatim. -/
def classifyHost (hs : String) : HostAddr :=
  match ipAddrParse hs with
  | some ip => HostAddr.Ip ip
  | none => HostAddr.Domain hs

/-- The final scheme dispatch of `from_str` (src/src/lib.rs, lines 80-95):
thirteen exact scheme names select the variant, anything else is
`InvalidScheme`. -/
def schemeEndpoint (sch : String) (host : HostAddr) (port : Nat) :
    Except ParseEndpointError Endpoint :=
  match sch with
  | "http" => .ok (.Http host port)
  | "https" => .ok (.Https host port)
  | "tcp" => .ok (.Tcp host port)
  | "udp" => .ok (.Udp host port)
  | "mqtt" => .ok (.Mqtt host port)
  | "mqtts" => .ok (.Mqtts host port)
  | "ws" => .ok (.Ws host port)
  | "wss" => .ok (.Wss host port)
  | "coap" => .ok (.Coap host port)
  | "coaps" => .ok (.Coaps host port)
  | "redis" => .ok (.Redis host port)
  | "amqp" => .ok (.Amqp host port)
  | "ftp" => .ok (.Ftp host port)
  | _ => .error .InvalidScheme

/-- `Endpoint::from_str` (src/src/lib.rs, lines 48-96): `unix://` and
`file://` literal prefixes first, then URL parsing, host extraction and
classification, port resolution, and scheme dispatch. -/
def Endpoint.from_str (s : String) : Except ParseEndpointError Endpoint :=
  match stripLead "unix://" s with
  | some path => .ok (.Unix path)
  | none =>
    match stripLead "file://" s with
    | some path => .ok (.File path)
    | none =>
      match urlParse s with
      | none => .error (.InvalidAddress s)
      | some url =>
        match url.host_str with
        | none => .error (.InvalidAddress s)
        | some hs =>
          match resolvedPort url with
          | none => .error (.InvalidAddress s)
          | some port => schemeEndpoint url.scheme (classifyHost hs) port

/-- `Display` for `IpAddr` (Rust `std`, external code): dotted-quad decimal
for `V4`.  The `V6` form is modelled as uncompressed colon-separated lower-case
hex; it is unreachable from parser-produced endpoints. -/
def IpAddr.display : IpAddr → String
  | .V4 a b c d =>
    natToString a ++ "." ++ natToString b ++ "." ++ natToString c ++ "." ++ natToString d
  | .V6 s0 s1 s2 s3 s4 s5 s6 s7 =>
    ⟨hexChars s0⟩ ++ ":" ++ ⟨hexChars s1⟩ ++ ":" ++ ⟨hexChars s2⟩ ++ ":" ++
      ⟨hexChars s3⟩ ++ ":" ++ ⟨hexChars s4⟩ ++ ":" ++ ⟨hexChars s5⟩ ++ ":" ++
      ⟨hexChars s6⟩ ++ ":" ++ ⟨hexChars s7⟩

/-- `impl fmt::Display for HostAddr` (src/src/lib.rs, lines 123-130). -/
def HostAddr.display : HostAddr → String
  | .Ip ip => ip.display
  | .Domain d => d

/-- `impl fmt::Display for Endpoint` (src/src/lib.rs, lines 100-120):
network variants render as `scheme://host:port`, path variants as
`unix://path` / `file://path`. -/
def Endpoint.display : Endpoint → String
  | .Http host port => "http://" ++ host.display ++ ":" ++ natToString port
  | .Https host port => "https://" ++ host.display ++ ":" ++ natToString port
  | .Tcp host port => "tcp://" ++ host.display ++ ":" ++ natToString port
  | .Udp host port => "udp://" ++ host.display ++ ":" ++ natToString port
  | .Mqtt host port => "mqtt://" ++ host.display ++ ":" ++ natToString port
  | .Mqtts host port => "mqtts://" ++ host.display ++ ":" ++ natToString port
  | .Ws host port => "ws://" ++ host.display ++ ":" ++ natToString port
  | .Wss host port => "wss://" ++ host.display ++ ":" ++ natToString port
  | .Coap host port => "coap://" ++ host.display ++ ":" ++ natToString port
  | .Coaps host port => "coaps://" ++ host.display ++ ":" ++ natToString port
  | .Redis host port => "redis://" ++ host.display ++ ":" ++ natToString port
  | .Amqp host port => "amqp://" ++ host.display ++ ":" ++ natToString port
  | .Ftp host port => "ftp://" ++ host.display ++ ":" ++ natToString port
  | .Unix path => "unix://" ++ path
  | .File path => "file://" ++ path

/-- `Endpoint::to_socket_addrs` (src/src/lib.rs, lines 135-163), parameterised
by the DNS lookup `dns` (`ToSocketAddrs` on `"domain:port"` strings, external
code): IP hosts pass through as a singleton list, domains are looked up, and
path variants always fail. -/
def Endpoint.to_socket_addrs (dns : String → Option (List SocketAddr)) :
    Endpoint → Except ParseEndpointError (List SocketAddr)
  | .Http host port | .Https host port | .Tcp host port | .Udp host port
  | .Mqtt host port | .Mqtts host port | .Ws host port | .Wss host port
  | .Coap host port | .Coaps host port | .Redis host port | .Amqp host port
  | .Ftp host port =>
    match host with
    | .Ip ip => .ok [⟨ip, port⟩]
    | .Domain d =>
      match dns (d ++ ":" ++ natToString port) with
      | some addrs => .ok addrs
      | none => .error (.InvalidAddress d)
  | .Unix _ | .File _ => .error (.InvalidAddress "No SocketAddr available")

/-- The host carried by a network endpoint (`none` for path endpoints). -/
def Endpoint.host? : Endpoint → Option HostAddr
  | .Http host _ | .Https host _ | .Tcp host _ | .Udp host _
  | .Mqtt host _ | .Mqtts host _ | .Ws host _ | .Wss host _
  | .Coap host _ | .Coaps host _ | .Redis host _ | .Amqp host _
  | .Ftp host _ => some host
  | .Unix _ | .File _ => none

/-- The port carried by a network endpoint (`none` for path endpoints). -/
def Endpoint.port? : Endpoint → Option Nat
  | .Http _ port | .Https _ port | .Tcp _ port | .Udp _ port
  | .Mqtt _ port | .Mqtts _ port | .Ws _ port | .Wss _ port
  | .Coap _ port | .Coaps _ port | .Redis _ port | .Amqp _ port
  | .Ftp _ port => some port
  | .Unix _ | .File _ => none

/-! ## String-data normalisation lemmas -/

@[simp] theorem mk_data (l : List Char) : (String.mk l).data = l := rfl

@[simp] theorem data_app (a b : String) : (a ++ b).data = a.data ++ b.data := rfl

@[simp] theorem natToString_data (n : Nat) : (natToString n).data = natChars n := rfl

@[simp] theorem dataUnixScheme : "unix://".data = ['u', 'n', 'i', 'x', ':', '/', '/'] := rfl

@[simp] theorem dataFileScheme : "file://".data = ['f', 'i', 'l', 'e', ':', '/', '/'] := rfl

@[simp] theorem dataSep : "://".data = [':', '/', '/'] := rfl

@[simp] theorem dataColon : ":".data = [':'] := rfl

@[simp] theorem dataDot : ".".data = ['.'] := rfl

theorem data_ne_nil (s : String) (h : s.data ≠ []) : s ≠ "" := by
  intro he
  rw [he] at h
  exact h rfl

/-! ## Digit-character lemmas -/

theorem digitChar_isDigit (m : Nat) (h : m < 10) : (Nat.digitChar m).isDigit = true := by
  interval_cases m <;> decide

theorem digitChar_val (m : Nat) (h : m < 10) : (Nat.digitChar m).toNat - 48 = m := by
  interval_cases m <;> decide

theorem digitChar_zero (m : Nat) (h : m < 10) (hz : Nat.digitChar m = '0') : m = 0 := by
  interval_cases m <;> first | rfl | (exact absurd hz (by decide))

theorem hostChar_of_isDigit (c : Char) (h : c.isDigit = true) : hostChar c = true := by
  by_cases h1 : c = ':'
  · rw [h1] at h
    exact absurd h (by decide)
  · by_cases h2 : c = '/'
    · rw [h2] at h
      exact absurd h (by decide)
    · simp [hostChar, h1, h2]

theorem ne_dot_of_isDigit (c : Char) (h : c.isDigit = true) : c ≠ '.' := by
  intro he
  rw [he] at h
  exact absurd h (by decide)

/-! ## Decimal rendering: round trip with `digitsVal` -/

theorem digitsVal_append_one (l : List Char) (c : Char) :
    digitsVal (l ++ [c]) = digitsVal l * 10 + (c.toNat - 48) := by
  simp [digitsVal, List.foldl_append]

theorem toDigitsAux10_fuel (n : Nat) :
    ∀ f, n < f → toDigitsAux 10 f n = natChars n := by
  induction n using Nat.strong_induction_on with
  | _ n ih =>
    intro f hf
    obtain ⟨f, rfl⟩ : ∃ f', f = f' + 1 := ⟨f - 1, by omega⟩
    unfold natChars
    by_cases h10 : n < 10
    · simp [toDigitsAux, h10]
    · have hd : n / 10 < n := Nat.div_lt_self (by omega) (by omega)
      have h1 : toDigitsAux 10 (f + 1) n
          = toDigitsAux 10 f (n / 10) ++ [Nat.digitChar (n % 10)] := by
        simp [toDigitsAux, h10]
      have h2 : toDigitsAux 10 (n + 1) n
          = toDigitsAux 10 n (n / 10) ++ [Nat.digitChar (n % 10)] := by
        simp [toDigitsAux, h10]
      rw [h1, h2, ih (n / 10) hd f (by omega), ih (n / 10) hd n hd]

theorem natChars_rec (n : Nat) :
    natChars n = if n < 10 then [Nat.digitChar n]
      else natChars (n / 10) ++ [Nat.digitChar (n % 10)] := by
  by_cases h10 : n < 10
  · simp only [natChars, toDigitsAux, if_pos h10]
  · have hd : n / 10 < n := Nat.div_lt_self (by omega) (by omega)
    simp only [natChars, toDigitsAux, if_neg h10]
    rw [toDigitsAux10_fuel (n / 10) n hd]
    rfl

theorem natChars_spec (n : Nat) :
    natChars n ≠ [] ∧ (∀ c ∈ natChars n, c.isDigit = true) ∧
      digitsVal (natChars n) = n ∧ (∀ l, natChars n = '0' :: l → n = 0) := by
  induction n using Nat.strong_induction_on with
  | _ n ih =>
    rw [natChars_rec n]
    by_cases h10 : n < 10
    · rw [if_pos h10]
      refine ⟨by simp, ?_, ?_, ?_⟩
      · intro c hc
        rw [List.mem_singleton.1 hc]
        exact digitChar_isDigit n h10
      · show digitsVal ([] ++ [Nat.digitChar n]) = n
        rw [digitsVal_append_one]
        simp [digitsVal, digitChar_val n h10]
      · intro l hl
        injection hl with h1 _
        exact digitChar_zero n h10 h1
    · rw [if_neg h10]
      have hd : n / 10 < n := Nat.div_lt_self (by omega) (by omega)
      obtain ⟨ihne, ihdig, ihval, ihz⟩ := ih (n / 10) hd
      refine ⟨by simp [ihne], ?_, ?_, ?_⟩
      · intro c hc
        rcases List.mem_append.1 hc with h | h
        · exact ihdig c h
        · rw [List.mem_singleton.1 h]
          exact digitChar_isDigit (n % 10) (Nat.mod_lt n (by omega))
      · rw [digitsVal_append_one, ihval, digitChar_val (n % 10) (Nat.mod_lt n (by omega))]
        omega
      · intro l hl
        exfalso
        cases hcs : natChars (n / 10) with
        | nil => exact ihne hcs
        | cons c0 t =>
          rw [hcs, List.cons_append] at hl
          injection hl with hc0 _
          have : n / 10 = 0 := ihz t (by rw [hcs, hc0])
          omega

theorem natChars_ne_nil (n : Nat) : natChars n ≠ [] := (natChars_spec n).1

theorem natChars_digits (n : Nat) : ∀ c ∈ natChars n, c.isDigit = true :=
  (natChars_spec n).2.1

theorem digitsVal_natChars (n : Nat) : digitsVal (natChars n) = n :=
  (natChars_spec n).2.2.1

/-! ## Literal-prefix stripping -/

theorem dropLead_self_append (p r : List Char) : dropLead p (p ++ r) = some r := by
  induction p with
  | nil => rfl
  | cons c t ih => simp [dropLead, ih]

theorem stripLead_self_append (p r : String) : stripLead p (p ++ r) = some r := by
  simp [stripLead, dropLead_self_append]

/-! ## `takeWhile` over an append that stops at a separator -/

theorem takeWhile_append_all (q : Char → Bool) (l r : List Char)
    (h : ∀ c ∈ l, q c = true) : (l ++ r).takeWhile q = l ++ r.takeWhile q := by
  induction l with
  | nil => simp
  | cons c t ih =>
    simp only [List.cons_append, List.takeWhile_cons, h c (by simp)]
    rw [ih (fun x hx => h x (by simp [hx]))]
    simp

theorem takeWhile_append_stop (q : Char → Bool) (l r : List Char) (c : Char)
    (h : ∀ x ∈ l, q x = true) (hc : q c = false) :
    (l ++ c :: r).takeWhile q = l := by
  rw [takeWhile_append_all q l (c :: r) h, List.takeWhile_cons, hc]
  simp

/-! ## `fields`: splitting at dots -/

theorem fields_dot (r : List Char) : fields ('.' :: r) = [] :: fields r := by
  simp [fields]

theorem fields_append_nodot (l : List Char) (hl : ∀ c ∈ l, c ≠ '.') :
    ∀ r f fs, fields r = f :: fs → fields (l ++ r) = (l ++ f) :: fs := by
  induction l with
  | nil =>
    intro r f fs h
    simpa using h
  | cons c t ih =>
    intro r f fs h
    have hc : c ≠ '.' := hl c (by simp)
    have ht := ih (fun x hx => hl x (by simp [hx])) r f fs h
    simp [fields, hc, ht]

theorem fields_nodot (l : List Char) (hl : ∀ c ∈ l, c ≠ '.') : fields l = [l] := by
  have := fields_append_nodot l hl [] [] [] rfl
  simpa using this

/-! ## Octets -/

theorem octetOf_le (g : List Char) (v : Nat) (h : octetOf g = some v) : v ≤ 255 := by
  unfold octetOf at h
  split_ifs at h with h1 h2 h3 h4
  injection h with h
  omega

theorem octetOf_natChars (n : Nat) (h : n ≤ 255) : octetOf (natChars n) = some n := by
  unfold octetOf
  rw [if_neg (natChars_ne_nil n),
    if_pos (List.all_eq_true.2 (natChars_digits n))]
  have hz : (natChars n).length = 1 ∨ (natChars n).head? ≠ some '0' := by
    by_cases hn : n = 0
    · left
      rw [hn]
      rfl
    · right
      intro hh
      cases hcs : natChars n with
      | nil => exact natChars_ne_nil n hcs
      | cons c0 t =>
        rw [hcs] at hh
        have hc0 : c0 = '0' := by
          simpa using hh
        exact hn ((natChars_spec n).2.2.2 t (by rw [hcs, hc0]))
  rw [if_pos hz]
  simp only [digitsVal_natChars]
  rw [if_pos h]

/-! ## IPv4 parsing and display -/

theorem ipAddrParse_inv (s : String) (ip : IpAddr) (h : ipAddrParse s = some ip) :
    ∃ a b c d, ip = .V4 a b c d ∧ a ≤ 255 ∧ b ≤ 255 ∧ c ≤ 255 ∧ d ≤ 255 := by
  unfold ipAddrParse ipv4Parse at h
  split at h
  · split at h
    · rename_i a b c d ha hb hc hd
      injection h with h
      exact ⟨a, b, c, d, h.symm, octetOf_le _ a ha, octetOf_le _ b hb,
        octetOf_le _ c hc, octetOf_le _ d hd⟩
    · cases h
  · cases h

theorem natChars_nodot (n : Nat) : ∀ c ∈ natChars n, c ≠ '.' :=
  fun c hc => ne_dot_of_isDigit c (natChars_digits n c hc)

theorem ipv4_display_data (a b c d : Nat) :
    (IpAddr.display (.V4 a b c d)).data
      = natChars a ++ '.' :: (natChars b ++ '.' :: (natChars c ++ '.' :: natChars d)) := by
  simp [IpAddr.display, natToString]

theorem ipAddrParse_display (a b c d : Nat)
    (ha : a ≤ 255) (hb : b ≤ 255) (hc : c ≤ 255) (hd : d ≤ 255) :
    ipAddrParse (IpAddr.display (.V4 a b c d)) = some (.V4 a b c d) := by
  unfold ipAddrParse
  rw [ipv4_display_data]
  have h4 : fields (natChars d) = [natChars d] := fields_nodot _ (natChars_nodot d)
  have h3 : fields ('.' :: natChars d) = [] :: [natChars d] := by
    rw [fields_dot, h4]
  have h3' : fields (natChars c ++ '.' :: natChars d) = [natChars c, natChars d] := by
    have := fields_append_nodot (natChars c) (natChars_nodot c) _ _ _ h3
    simpa using this
  have h2 : fields ('.' :: (natChars c ++ '.' :: natChars d))
      = [] :: [natChars c, natChars d] := by
    rw [fields_dot, h3']
  have h2' : fields (natChars b ++ '.' :: (natChars c ++ '.' :: natChars d))
      = [natChars b, natChars c, natChars d] := by
    have := fields_append_nodot (natChars b) (natChars_nodot b) _ _ _ h2
    simpa using this
  have h1 : fields ('.' :: (natChars b ++ '.' :: (natChars c ++ '.' :: natChars d)))
      = [] :: [natChars b, natChars c, natChars d] := by
    rw [fields_dot, h2']
  have h1' : fields (natChars a ++ '.' :: (natChars b ++ '.' :: (natChars c ++ '.' :: natChars d)))
      = [natChars a, natChars b, natChars c, natChars d] := by
    have := fields_append_nodot (natChars a) (natChars_nodot a) _ _ _ h1
    simpa using this
  unfold ipv4Parse
  rw [h1']
  simp only [octetOf_natChars a ha, octetOf_natChars b hb, octetOf_natChars c hc,
    octetOf_natChars d hd]

/-! ## URL-layer lemmas -/

theorem urlParse_inv (s : String) (u : Url) (h : urlParse s = some u) :
    (∀ hs, u.host_str = some hs → hs.data ≠ [] ∧ ∀ c ∈ hs.data, hostChar c = true) ∧
    (∀ p, u.port = some p → p ≤ 65535) := by
  unfold urlParse urlParseList at h
  split at h
  · cases h
  · split at h
    · split at h
      · cases h
      · rename_i hne
        split at h
        · injection h with h
          subst h
          constructor
          · intro hs heq
            injection heq with heq
            subst heq
            exact ⟨by simpa using hne, fun c hc => List.mem_takeWhile_imp hc⟩
          · intro p hp
            cases hp
        · split at h
          · cases h
          · split at h
            · split at h
              · injection h with h
                subst h
                constructor
                · intro hs heq
                  injection heq with heq
                  subst heq
                  exact ⟨by simpa using hne, fun c hc => List.mem_takeWhile_imp hc⟩
                · intro p hp
                  injection hp with hp
                  subst hp
                  assumption
              · cases h
            · cases h
        · cases h
    · cases h

theorem urlParse_reconstruct (sch h : String) (p : Nat)
    (hs1 : sch.data ≠ []) (hs2 : ∀ c ∈ sch.data, c.isAlpha = true)
    (hh1 : h.data ≠ []) (hh2 : ∀ c ∈ h.data, hostChar c = true) (hp : p ≤ 65535) :
    urlParseList (sch.data ++ ':' :: '/' :: '/' :: (h.data ++ ':' :: natChars p))
      = some ⟨sch, some h, some p⟩ := by
  have htw : (sch.data ++ ':' :: '/' :: '/' :: (h.data ++ ':' :: natChars p)).takeWhile
      Char.isAlpha = sch.data :=
    takeWhile_append_stop _ _ _ _ hs2 (by decide)
  have htwh : (h.data ++ ':' :: natChars p).takeWhile hostChar = h.data :=
    takeWhile_append_stop _ _ _ _ hh2 (by decide)
  unfold urlParseList
  simp only [htw, List.drop_left, htwh, if_neg hs1, if_neg hh1,
    if_neg (natChars_ne_nil p), if_pos (List.all_eq_true.2 (natChars_digits p)),
    digitsVal_natChars, if_pos hp]

/-! ## Scheme dispatch and default ports -/

/-- The thirteen recognized network scheme names, in source order. -/
def knownSchemes : List String :=
  ["http", "https", "tcp", "udp", "mqtt", "mqtts", "ws", "wss",
   "coap", "coaps", "redis", "amqp", "ftp"]

theorem schemeEndpoint_ok (sch : String) (hst : HostAddr) (p : Nat) (e : Endpoint)
    (h : schemeEndpoint sch hst p = .ok e) :
    e.host? = some hst ∧ e.port? = some p := by
  unfold schemeEndpoint at h
  split at h <;> (try cases h) <;> exact ⟨rfl, rfl⟩

theorem schemeEndpoint_unknown (sch : String) (hst : HostAddr) (p : Nat)
    (h : sch ∉ knownSchemes) : schemeEndpoint sch hst p = .error .InvalidScheme := by
  unfold schemeEndpoint
  split <;> first
  | rfl
  | (exact absurd (by decide) h)

theorem defaultPort_le (sch : String) (v : Nat) (h : defaultPort sch = some v) :
    v ≤ 65535 := by
  unfold defaultPort at h
  split at h <;> (try cases h) <;> omega

theorem defaultPort_none (sch : String)
    (h80 : sch ∉ (["http", "ws", "mqtt", "coap", "redis", "amqp", "ftp"] : List String))
    (h443 : sch ∉ (["https", "wss", "mqtts", "coaps"] : List String)) :
    defaultPort sch = none := by
  unfold defaultPort
  split <;> first
  | rfl
  | (exact absurd (by decide) h80)
  | (exact absurd (by decide) h443)

theorem defaultPort_mem80 (sch : String)
    (h : sch ∈ (["http", "ws", "mqtt", "coap", "redis", "amqp", "ftp"] : List String)) :
    defaultPort sch = some 80 := by
  fin_cases h <;> rfl

theorem defaultPort_mem443 (sch : String)
    (h : sch ∈ (["https", "wss", "mqtts", "coaps"] : List String)) :
    defaultPort sch = some 443 := by
  fin_cases h <;> rfl

/-! ## The canonical-shape invariant of parser-produced values -/

/-- Shape of every host the parser can place in an endpoint: an in-range IPv4
address, or a domain string that is non-empty, free of `:` and `/`, and not an
IP literal. -/
def HostAddr.canonical : HostAddr → Prop
  | .Ip ip => ∃ a b c d, ip = .V4 a b c d ∧ a ≤ 255 ∧ b ≤ 255 ∧ c ≤ 255 ∧ d ≤ 255
  | .Domain d => d.data ≠ [] ∧ (∀ c ∈ d.data, hostChar c = true) ∧ ipAddrParse d = none

/-- Shape of every endpoint the parser can produce. -/
def Endpoint.canonical (e : Endpoint) : Prop :=
  (∀ h, e.host? = some h → h.canonical) ∧ (∀ p, e.port? = some p → p ≤ 65535)

theorem classifyHost_canonical (hs : String) (h1 : hs.data ≠ [])
    (h2 : ∀ c ∈ hs.data, hostChar c = true) : (classifyHost hs).canonical := by
  unfold classifyHost
  cases hip : ipAddrParse hs with
  | some ip =>
    obtain ⟨a, b, c, d, rfl, ha, hb, hc, hd⟩ := ipAddrParse_inv hs ip hip
    exact ⟨a, b, c, d, rfl, ha, hb, hc, hd⟩
  | none => exact ⟨h1, h2, hip⟩

theorem display_canonical (ha : HostAddr) (h : ha.canonical) :
    ha.display.data ≠ [] ∧ (∀ c ∈ ha.display.data, hostChar c = true) ∧
      classifyHost ha.display = ha := by
  cases ha with
  | Domain d =>
    obtain ⟨h1, h2, h3⟩ := h
    exact ⟨h1, h2, by simp [HostAddr.display, classifyHost, h3]⟩
  | Ip ip =>
    obtain ⟨a, b, c, d, rfl, ha255, hb255, hc255, hd255⟩ := h
    have hdata : (HostAddr.display (.Ip (.V4 a b c d))).data
        = natChars a ++ '.' :: (natChars b ++ '.' :: (natChars c ++ '.' :: natChars d)) := by
      simp [HostAddr.display, ipv4_display_data]
    refine ⟨?_, ?_, ?_⟩
    · rw [hdata]
      simp [natChars_ne_nil a]
    · rw [hdata]
      intro c0 hc0
      have hdotok : hostChar '.' = true := by decide
      rcases List.mem_append.1 hc0 with hm | hm
      · exact hostChar_of_isDigit c0 (natChars_digits a c0 hm)
      · rcases List.mem_cons.1 hm with rfl | hm
        · exact hdotok
        · rcases List.mem_append.1 hm with hm | hm
          · exact hostChar_of_isDigit c0 (natChars_digits b c0 hm)
          · rcases List.mem_cons.1 hm with rfl | hm
            · exact hdotok
            · rcases List.mem_append.1 hm with hm | hm
              · exact hostChar_of_isDigit c0 (natChars_digits c c0 hm)
              · rcases List.mem_cons.1 hm with rfl | hm
                · exact hdotok
                · exact hostChar_of_isDigit c0 (natChars_digits d c0 hm)
    · show classifyHost (IpAddr.display (.V4 a b c d)) = _
      unfold classifyHost
      rw [ipAddrParse_display a b c d ha255 hb255 hc255 hd255]

/-! ## Parser helpers for the literal-prefix branches -/

theorem from_str_unix_app (r : String) :
    Endpoint.from_str ("unix://" ++ r) = .ok (.Unix r) := by
  simp only [Endpoint.from_str, stripLead_self_append]

theorem stripLead_unix_of_file (r : String) :
    stripLead "unix://" ("file://" ++ r) = none := by
  simp [stripLead, dropLead]

theorem from_str_file_app (r : String) :
    Endpoint.from_str ("file://" ++ r) = .ok (.File r) := by
  simp only [Endpoint.from_str, stripLead_unix_of_file, stripLead_self_append]

/-! ## Inversion of `from_str` -/

theorem from_str_ok_inv (s : String) (e : Endpoint) (h : Endpoint.from_str s = .ok e) :
    (∃ r, stripLead "unix://" s = some r ∧ e = .Unix r) ∨
    (∃ r, stripLead "file://" s = some r ∧ e = .File r) ∨
    (∃ u hs p, urlParse s = some u ∧ u.host_str = some hs ∧ resolvedPort u = some p ∧
      schemeEndpoint u.scheme (classifyHost hs) p = .ok e) := by
  unfold Endpoint.from_str at h
  split at h
  · rename_i r hr
    injection h with h
    exact .inl ⟨r, hr, h.symm⟩
  · split at h
    · rename_i r hr
      injection h with h
      exact .inr (.inl ⟨r, hr, h.symm⟩)
    · split at h
      · cases h
      · rename_i u hu
        split at h
        · cases h
        · rename_i hs hhs
          split at h
          · cases h
          · rename_i p hp
            exact .inr (.inr ⟨u, hs, p, hu, hhs, hp, h⟩)

theorem from_str_canonical (s : String) (e : Endpoint) (h : Endpoint.from_str s = .ok e) :
    e.canonical := by
  rcases from_str_ok_inv s e h with ⟨r, _, rfl⟩ | ⟨r, _, rfl⟩ |
    ⟨u, hs, p, hu, hhs, hp, hse⟩
  · exact ⟨fun x hx => by simp [Endpoint.host?] at hx,
      fun x hx => by simp [Endpoint.port?] at hx⟩
  · exact ⟨fun x hx => by simp [Endpoint.host?] at hx,
      fun x hx => by simp [Endpoint.port?] at hx⟩
  · obtain ⟨hh, hps⟩ := schemeEndpoint_ok _ _ _ _ hse
    obtain ⟨hostf, portf⟩ := urlParse_inv s u hu
    have hhostc : (classifyHost hs).canonical := by
      obtain ⟨h1, h2⟩ := hostf hs hhs
      exact classifyHost_canonical hs h1 h2
    have hple : p ≤ 65535 := by
      unfold resolvedPort at hp
      cases hup : u.port with
      | some q =>
        simp only [hup] at hp
        injection hp with hp
        exact hp ▸ portf q hup
      | none =>
        simp only [hup] at hp
        exact defaultPort_le _ _ hp
    constructor
    · intro h0 hh0
      rw [hh] at hh0
      injection hh0 with hh0
      rw [← hh0]
      exact hhostc
    · intro p0 hp0
      rw [hps] at hp0
      injection hp0 with hp0
      rw [← hp0]
      exact hple

/-! ## Re-parsing formatted endpoints -/

theorem reparse_net (sch : String) (mk : HostAddr → Nat → Endpoint)
    (host : HostAddr) (p : Nat)
    (hs1 : sch.data ≠ []) (hs2 : ∀ c ∈ sch.data, c.isAlpha = true)
    (hu : stripLead "unix://" (sch ++ "://" ++ host.display ++ ":" ++ natToString p) = none)
    (hf : stripLead "file://" (sch ++ "://" ++ host.display ++ ":" ++ natToString p) = none)
    (hmk : schemeEndpoint sch host p = .ok (mk host p))
    (hca : host.canonical) (hp : p ≤ 65535) :
    Endpoint.from_str (sch ++ "://" ++ host.display ++ ":" ++ natToString p)
      = .ok (mk host p) := by
  obtain ⟨hd1, hd2, hd3⟩ := display_canonical host hca
  have hdata : (sch ++ "://" ++ host.display ++ ":" ++ natToString p).data
      = sch.data ++ ':' :: '/' :: '/' :: (host.display.data ++ ':' :: natChars p) := by
    simp
  have hurl : urlParse (sch ++ "://" ++ host.display ++ ":" ++ natToString p)
      = some ⟨sch, some host.display, some p⟩ := by
    unfold urlParse
    rw [hdata]
    exact urlParse_reconstruct sch host.display p hs1 hs2 hd1 hd2 hp
  simp only [Endpoint.from_str, hu, hf, hurl, resolvedPort, hd3]
  exact hmk

@[simp] theorem dataHttp : "http".data = ['h', 't', 't', 'p'] := rfl

@[simp] theorem dataHttps : "https".data = ['h', 't', 't', 'p', 's'] := rfl

@[simp] theorem dataTcp : "tcp".data = ['t', 'c', 'p'] := rfl

@[simp] theorem dataUdp : "udp".data = ['u', 'd', 'p'] := rfl

@[simp] theorem dataMqtt : "mqtt".data = ['m', 'q', 't', 't'] := rfl

@[simp] theorem dataMqtts : "mqtts".data = ['m', 'q', 't', 't', 's'] := rfl

@[simp] theorem dataWs : "ws".data = ['w', 's'] := rfl

@[simp] theorem dataWss : "wss".data = ['w', 's', 's'] := rfl

@[simp] theorem dataCoap : "coap".data = ['c', 'o', 'a', 'p'] := rfl

@[simp] theorem dataCoaps : "coaps".data = ['c', 'o', 'a', 'p', 's'] := rfl

@[simp] theorem dataRedis : "redis".data = ['r', 'e', 'd', 'i', 's'] := rfl

@[simp] theorem dataAmqp : "amqp".data = ['a', 'm', 'q', 'p'] := rfl

@[simp] theorem dataFtp : "ftp".data = ['f', 't', 'p'] := rfl

theorem canonical_reparse (e : Endpoint) (hc : e.canonical) :
    Endpoint.from_str e.display = .ok e := by
  obtain ⟨hch, hcp⟩ := hc
  cases e with
  | Unix path => exact from_str_unix_app path
  | File path => exact from_str_file_app path
  | Http host p =>
    exact reparse_net "http" Endpoint.Http host p (by decide) (by decide)
      (by simp [stripLead, dropLead]) (by simp [stripLead, dropLead]) rfl
      (hch host rfl) (hcp p rfl)
  | Https host p =>
    exact reparse_net "https" Endpoint.Https host p (by decide) (by decide)
      (by simp [stripLead, dropLead]) (by simp [stripLead, dropLead]) rfl
      (hch host rfl) (hcp p rfl)
  | Tcp host p =>
    exact reparse_net "tcp" Endpoint.Tcp host p (by decide) (by decide)
      (by simp [stripLead, dropLead]) (by simp [stripLead, dropLead]) rfl
      (hch host rfl) (hcp p rfl)
  | Udp host p =>
    exact reparse_net "udp" Endpoint.Udp host p (by decide) (by decide)
      (by simp [stripLead, dropLead]) (by simp [stripLead, dropLead]) rfl
      (hch host rfl) (hcp p rfl)
  | Mqtt host p =>
    exact reparse_net "mqtt" Endpoint.Mqtt host p (by decide) (by decide)
      (by simp [stripLead, dropLead]) (by simp [stripLead, dropLead]) rfl
      (hch host rfl) (hcp p rfl)
  | Mqtts host p =>
    exact reparse_net "mqtts" Endpoint.Mqtts host p (by decide) (by decide)
      (by simp [stripLead, dropLead]) (by simp [stripLead, dropLead]) rfl
      (hch host rfl) (hcp p rfl)
  | Ws host p =>
    exact reparse_net "ws" Endpoint.Ws host p (by decide) (by decide)
      (by simp [stripLead, dropLead]) (by simp [stripLead, dropLead]) rfl
      (hch host rfl) (hcp p rfl)
  | Wss host p =>
    exact reparse_net "wss" Endpoint.Wss host p (by decide) (by decide)
      (by simp [stripLead, dropLead]) (by simp [stripLead, dropLead]) rfl
      (hch host rfl) (hcp p rfl)
  | Coap host p =>
    exact reparse_net "coap" Endpoint.Coap host p (by decide) (by decide)
      (by simp [stripLead, dropLead]) (by simp [stripLead, dropLead]) rfl
      (hch host rfl) (hcp p rfl)
  | Coaps host p =>
    exact reparse_net "coaps" Endpoint.Coaps host p (by decide) (by decide)
      (by simp [stripLead, dropLead]) (by simp [stripLead, dropLead]) rfl
      (hch host rfl) (hcp p rfl)
  | Redis host p =>
    exact reparse_net "redis" Endpoint.Redis host p (by decide) (by decide)
      (by simp [stripLead, dropLead]) (by simp [stripLead, dropLead]) rfl
      (hch host rfl) (hcp p rfl)
  | Amqp host p =>
    exact reparse_net "amqp" Endpoint.Amqp host p (by decide) (by decide)
      (by simp [stripLead, dropLead]) (by simp [stripLead, dropLead]) rfl
      (hch host rfl) (hcp p rfl)
  | Ftp host p =>
    exact reparse_net "ftp" Endpoint.Ftp host p (by decide) (by decide)
      (by simp [stripLead, dropLead]) (by simp [stripLead, dropLead]) rfl
      (hch host rfl) (hcp p rfl)

/-! ## Claims -/

/-- C1: Round-trip law: for every Endpoint value `e` that the parser can
produce from some input string, parsing the formatter's output for `e` yields
`Ok` of a value equal to `e` — `parse(format(e)) == e` — for every scheme
variant and every host kind as well as for Unix and File path endpoints. -/
theorem c1_round_trip (s : String) (e : Endpoint) (h : Endpoint.from_str s = .ok e) :
    Endpoint.from_str e.display = .ok e :=
  canonical_reparse e (from_str_canonical s e h)

theorem c1_round_trip_witness :
    Endpoint.from_str "tcp://example.com:8080" = .ok (.Tcp (.Domain "example.com") 8080) ∧
    Endpoint.from_str (Endpoint.display (.Tcp (.Domain "example.com") 8080))
      = .ok (.Tcp (.Domain "example.com") 8080) :=
  ⟨by decide, c1_round_trip "tcp://example.com:8080" _ (by decide)⟩

/-- C2: Default-port resolution: with no explicit port, the scheme table fills
80 for `http, ws, mqtt, coap, redis, amqp, ftp` and 443 for
`https, wss, mqtts, coaps`; any other scheme with no explicit port yields
`InvalidAddress` carrying the original input; an explicit port is used as
given. -/
theorem c2_default_port (s : String) (u : Url) (hs : String)
    (hnu : stripLead "unix://" s = none) (hnf : stripLead "file://" s = none)
    (hu : urlParse s = some u) (hhs : u.host_str = some hs) :
    (u.port = none →
      ((u.scheme ∈ (["http", "ws", "mqtt", "coap", "redis", "amqp", "ftp"] : List String) →
          ∃ e, Endpoint.from_str s = .ok e ∧ e.port? = some 80) ∧
       (u.scheme ∈ (["https", "wss", "mqtts", "coaps"] : List String) →
          ∃ e, Endpoint.from_str s = .ok e ∧ e.port? = some 443) ∧
       (u.scheme ∉ (["http", "ws", "mqtt", "coap", "redis", "amqp", "ftp"] : List String) →
        u.scheme ∉ (["https", "wss", "mqtts", "coaps"] : List String) →
          Endpoint.from_str s = .error (.InvalidAddress s)))) ∧
    (∀ p e, u.port = some p → Endpoint.from_str s = .ok e → e.port? = some p) := by
  have hred : Endpoint.from_str s
      = match resolvedPort u with
        | none => .error (.InvalidAddress s)
        | some port => schemeEndpoint u.scheme (classifyHost hs) port := by
    simp only [Endpoint.from_str, hnu, hnf, hu, hhs]
  constructor
  · intro hnone
    have hrp : resolvedPort u = defaultPort u.scheme := by
      simp [resolvedPort, hnone]
    refine ⟨?_, ?_, ?_⟩
    · intro hmem
      have hmem' : u.scheme = "http" ∨ u.scheme = "ws" ∨ u.scheme = "mqtt" ∨
          u.scheme = "coap" ∨ u.scheme = "redis" ∨ u.scheme = "amqp" ∨
          u.scheme = "ftp" := by simpa using hmem
      rcases hmem' with h | h | h | h | h | h | h
      · exact ⟨.Http (classifyHost hs) 80, by rw [hred, hrp, h]; rfl, rfl⟩
      · exact ⟨.Ws (classifyHost hs) 80, by rw [hred, hrp, h]; rfl, rfl⟩
      · exact ⟨.Mqtt (classifyHost hs) 80, by rw [hred, hrp, h]; rfl, rfl⟩
      · exact ⟨.Coap (classifyHost hs) 80, by rw [hred, hrp, h]; rfl, rfl⟩
      · exact ⟨.Redis (classifyHost hs) 80, by rw [hred, hrp, h]; rfl, rfl⟩
      · exact ⟨.Amqp (classifyHost hs) 80, by rw [hred, hrp, h]; rfl, rfl⟩
      · exact ⟨.Ftp (classifyHost hs) 80, by rw [hred, hrp, h]; rfl, rfl⟩
    · intro hmem
      have hmem' : u.scheme = "https" ∨ u.scheme = "wss" ∨ u.scheme = "mqtts" ∨
          u.scheme = "coaps" := by simpa using hmem
      rcases hmem' with h | h | h | h
      · exact ⟨.Https (classifyHost hs) 443, by rw [hred, hrp, h]; rfl, rfl⟩
      · exact ⟨.Wss (classifyHost hs) 443, by rw [hred, hrp, h]; rfl, rfl⟩
      · exact ⟨.Mqtts (classifyHost hs) 443, by rw [hred, hrp, h]; rfl, rfl⟩
      · exact ⟨.Coaps (classifyHost hs) 443, by rw [hred, hrp, h]; rfl, rfl⟩
    · intro h80 h443
      rw [hred, hrp, defaultPort_none u.scheme h80 h443]
  · intro p e hp he
    have hrp : resolvedPort u = some p := by
      simp [resolvedPort, hp]
    rw [hred, hrp] at he
    exact (schemeEndpoint_ok _ _ _ _ he).2

theorem c2_default_port_witness :
    ∃ e, Endpoint.from_str "http://h" = .ok e ∧ e.port? = some 80 :=
  ((c2_default_port "http://h" ⟨"http", some "h", none⟩ "h" (by decide) (by decide)
    (by decide) rfl).1 rfl).1 (by decide)

/-- C3: Host classification: a host string that parses as a valid IP literal
becomes `HostAddr::Ip` of that address, otherwise `HostAddr::Domain` verbatim;
in particular `tcp://127.0.0.1:9000` yields `Ip(127.0.0.1)` with port 9000 and
`tcp://example.com:8080` yields `Domain("example.com")` with port 8080. -/
theorem c3_host_classification :
    (∀ (s : String) (u : Url) (hs : String) (e : Endpoint),
      stripLead "unix://" s = none → stripLead "file://" s = none →
      urlParse s = some u → u.host_str = some hs →
      Endpoint.from_str s = .ok e →
      e.host? = some (match ipAddrParse hs with
        | some ip => HostAddr.Ip ip
        | none => HostAddr.Domain hs)) ∧
    Endpoint.from_str "tcp://127.0.0.1:9000" = .ok (.Tcp (.Ip (.V4 127 0 0 1)) 9000) ∧
    Endpoint.from_str "tcp://example.com:8080" = .ok (.Tcp (.Domain "example.com") 8080) := by
  refine ⟨?_, by decide, by decide⟩
  intro s u hs e hnu hnf hu hhs he
  have hred : Endpoint.from_str s
      = match resolvedPort u with
        | none => .error (.InvalidAddress s)
        | some port => schemeEndpoint u.scheme (classifyHost hs) port := by
    simp only [Endpoint.from_str, hnu, hnf, hu, hhs]
  rw [hred] at he
  cases hrp : resolvedPort u with
  | none =>
    rw [hrp] at he
    simp at he
  | some p =>
    simp only [hrp] at he
    exact (schemeEndpoint_ok _ _ _ _ he).1

theorem c3_host_classification_witness :
    (Endpoint.Tcp (.Domain "example.com") 8080).host?
      = some (match ipAddrParse "example.com" with
        | some ip => HostAddr.Ip ip
        | none => HostAddr.Domain "example.com") :=
  c3_host_classification.1 "tcp://example.com:8080" ⟨"tcp", some "example.com", some 8080⟩
    "example.com" _ (by decide) (by decide) (by decide) rfl (by decide)

/-- C4: Path-endpoint parsing precedence: an input beginning with the literal
`unix://` parses to a Unix endpoint whose path is exactly the verbatim
remainder, with no further validation, and likewise `file://` to a File
endpoint; the prefix checks take precedence over URL parsing and apply even to
inputs that are not valid URLs. -/
theorem c4_path_passthrough :
    (∀ s r : String, s = "unix://" ++ r → Endpoint.from_str s = .ok (.Unix r)) ∧
    (∀ s r : String, s = "file://" ++ r → Endpoint.from_str s = .ok (.File r)) := by
  constructor
  · intro s r h
    rw [h]
    exact from_str_unix_app r
  · intro s r h
    rw [h]
    exact from_str_file_app r

theorem c4_path_passthrough_witness :
    Endpoint.from_str "unix:///tmp/socket.sock" = .ok (.Unix "/tmp/socket.sock") ∧
    Endpoint.from_str "file:///home/user/data.txt" = .ok (.File "/home/user/data.txt") :=
  ⟨c4_path_passthrough.1 "unix:///tmp/socket.sock" "/tmp/socket.sock" (by decide),
   c4_path_passthrough.2 "file:///home/user/data.txt" "/home/user/data.txt" (by decide)⟩

/-- C5: Non-empty-domain invariant: every parser-produced endpoint carrying a
`HostAddr::Domain` has a non-empty domain string, and a URL-parsed input never
exposes an empty host component. -/
theorem c5_domain_nonempty :
    (∀ (s : String) (e : Endpoint) (d : String),
      Endpoint.from_str s = .ok e → e.host? = some (.Domain d) → d ≠ "") ∧
    (∀ (s : String) (u : Url) (hs : String),
      urlParse s = some u → u.host_str = some hs → hs ≠ "") := by
  constructor
  · intro s e d h hd
    rcases from_str_ok_inv s e h with ⟨r, _, rfl⟩ | ⟨r, _, rfl⟩ |
      ⟨u, hs, p, hu, hhs, hp, hse⟩
    · simp [Endpoint.host?] at hd
    · simp [Endpoint.host?] at hd
    · have hh := (schemeEndpoint_ok _ _ _ _ hse).1
      rw [hh] at hd
      injection hd with hd
      unfold classifyHost at hd
      cases hip : ipAddrParse hs with
      | some ip =>
        simp only [hip] at hd
        cases hd
      | none =>
        simp only [hip] at hd
        injection hd with hd
        rw [← hd]
        exact data_ne_nil hs ((urlParse_inv s u hu).1 hs hhs).1
  · intro s u hs hu hhs
    exact data_ne_nil hs ((urlParse_inv s u hu).1 hs hhs).1

theorem c5_domain_nonempty_witness : ("h" : String) ≠ "" :=
  c5_domain_nonempty.2 "tcp://h:1" ⟨"tcp", some "h", some 1⟩ "h" (by decide) rfl

/-- C6: Scheme matching is case-sensitive and exact with no aliasing: an input
whose scheme differs from the thirteen recognized lowercase names in any
character — including only by letter case, such as `TCP` — does not select the
corresponding network variant but yields an error. -/
theorem c6_scheme_exact :
    (∀ (s : String) (u : Url),
      stripLead "unix://" s = none → stripLead "file://" s = none →
      urlParse s = some u → u.scheme ∉ knownSchemes →
      ∃ err, Endpoint.from_str s = .error err) ∧
    Endpoint.from_str "TCP://127.0.0.1:9000" = .error .InvalidScheme := by
  refine ⟨?_, by decide⟩
  intro s u hnu hnf hu hks
  cases hhs : u.host_str with
  | none =>
    exact ⟨.InvalidAddress s, by simp only [Endpoint.from_str, hnu, hnf, hu, hhs]⟩
  | some hs =>
    cases hrp : resolvedPort u with
    | none =>
      exact ⟨.InvalidAddress s,
        by simp only [Endpoint.from_str, hnu, hnf, hu, hhs, hrp]⟩
    | some p =>
      refine ⟨.InvalidScheme, ?_⟩
      simp only [Endpoint.from_str, hnu, hnf, hu, hhs, hrp]
      exact schemeEndpoint_unknown u.scheme (classifyHost hs) p hks

theorem c6_scheme_exact_witness :
    ∃ err, Endpoint.from_str "TCP://127.0.0.1:9000" = .error err :=
  c6_scheme_exact.1 "TCP://127.0.0.1:9000" ⟨"TCP", some "127.0.0.1", some 9000⟩
    (by decide) (by decide) (by decide) (by decide)

/-- C7: Unsupported scheme: a syntactically valid URL with a host and a
resolvable port whose scheme matches none of the thirteen known names yields
`InvalidScheme`; in particular `ftps://h:21` does. -/
theorem c7_invalid_scheme :
    (∀ (s : String) (u : Url) (hs : String) (p : Nat),
      stripLead "unix://" s = none → stripLead "file://" s = none →
      urlParse s = some u → u.host_str = some hs → resolvedPort u = some p →
      u.scheme ∉ knownSchemes →
      Endpoint.from_str s = .error .InvalidScheme) ∧
    Endpoint.from_str "ftps://h:21" = .error .InvalidScheme := by
  refine ⟨?_, by decide⟩
  intro s u hs p hnu hnf hu hhs hrp hks
  simp only [Endpoint.from_str, hnu, hnf, hu, hhs, hrp]
  exact schemeEndpoint_unknown u.scheme (classifyHost hs) p hks

theorem c7_invalid_scheme_witness :
    Endpoint.from_str "ftps://h:21" = .error .InvalidScheme :=
  c7_invalid_scheme.1 "ftps://h:21" ⟨"ftps", some "h", some 21⟩ "h" 21
    (by decide) (by decide) (by decide) rfl rfl (by decide)

/-- C8: Resolver IP passthrough: a network endpoint whose host is
`HostAddr::Ip(ip)` with port `p` resolves, under every DNS function, to `Ok`
of exactly the singleton `[ip:p]`; in particular the endpoint parsed from
`tcp://127.0.0.1:9000` resolves to exactly `[127.0.0.1:9000]`. -/
theorem c8_resolver_ip :
    (∀ (dns : String → Option (List SocketAddr)) (e : Endpoint) (ip : IpAddr) (p : Nat),
      e.host? = some (.Ip ip) → e.port? = some p →
      e.to_socket_addrs dns = .ok [⟨ip, p⟩]) ∧
    (∀ dns : String → Option (List SocketAddr),
      Endpoint.from_str "tcp://127.0.0.1:9000" = .ok (.Tcp (.Ip (.V4 127 0 0 1)) 9000) ∧
      (Endpoint.Tcp (.Ip (.V4 127 0 0 1)) 9000).to_socket_addrs dns
        = .ok [⟨.V4 127 0 0 1, 9000⟩]) := by
  constructor
  · intro dns e ip p hh hp
    cases e <;> simp_all [Endpoint.host?, Endpoint.port?, Endpoint.to_socket_addrs]
  · intro dns
    exact ⟨by decide, rfl⟩

theorem c8_resolver_ip_witness :
    (Endpoint.Tcp (.Ip (.V4 127 0 0 1)) 9000).to_socket_addrs (fun _ => none)
      = .ok [⟨.V4 127 0 0 1, 9000⟩] :=
  c8_resolver_ip.1 (fun _ => none) (.Tcp (.Ip (.V4 127 0 0 1)) 9000)
    (.V4 127 0 0 1) 9000 rfl rfl

/-- C9: Resolver path-variant failure: for every Unix or File endpoint,
whatever its path and whatever the DNS function, `to_socket_addrs` returns
the error `InvalidAddress("No SocketAddr available")`. -/
theorem c9_resolver_path (dns : String → Option (List SocketAddr)) (p : String) :
    (Endpoint.Unix p).to_socket_addrs dns
        = .error (.InvalidAddress "No SocketAddr available") ∧
    (Endpoint.File p).to_socket_addrs dns
        = .error (.InvalidAddress "No SocketAddr available") :=
  ⟨rfl, rfl⟩

theorem c9_resolver_path_witness :
    (Endpoint.Unix "/tmp/socket.sock").to_socket_addrs (fun _ => none)
        = .error (.InvalidAddress "No SocketAddr available") ∧
    (Endpoint.File "/tmp/socket.sock").to_socket_addrs (fun _ => none)
        = .error (.InvalidAddress "No SocketAddr available") :=
  c9_resolver_path (fun _ => none) "/tmp/socket.sock"

/-- C10: Implicit: an input beginning with `unix://` or `file://` never yields
an error — it always parses to a Unix (respectively File) endpoint — even when
the remainder is empty, so the bare strings `unix://` and `file://` yield the
empty path. -/
theorem c10_path_always_ok :
    (∀ r : String, ∃ p, Endpoint.from_str ("unix://" ++ r) = .ok (.Unix p)) ∧
    (∀ r : String, ∃ p, Endpoint.from_str ("file://" ++ r) = .ok (.File p)) ∧
    Endpoint.from_str "unix://" = .ok (.Unix "") ∧
    Endpoint.from_str "file://" = .ok (.File "") :=
  ⟨fun r => ⟨r, from_str_unix_app r⟩, fun r => ⟨r, from_str_file_app r⟩,
   by decide, by decide⟩

theorem c10_path_always_ok_witness :
    ∃ p, Endpoint.from_str ("unix://" ++ "sock") = .ok (.Unix p) :=
  c10_path_always_ok.1 "sock"
